import Mathlib

/-!
Verification of the CSV-to-SQLite ingestion pipeline (ingest_to_sqlite.py).

The pipeline reads five delimited source files (customers, products, orders,
order_items, reviews), converts each record to a typed tuple, clears the five
tables in reverse dependency order and reloads them in forward dependency
order, one transaction per table, with foreign-key enforcement enabled.

This file embeds the program shallowly: rows are association lists from header
names to field strings, typed values are an inductive `Value` type, the SQLite
database is a record of five row lists together with the session flags the
program sets, and `main` is a state-passing function over that record. Python
float parsing is modelled over the rationals (the finite literal grammar:
optional sign, digits, optional point and exponent); Python int parsing is the
optional-sign-and-digits grammar. File and database input/output is modelled
by passing the parsed file contents and the database state explicitly.
-/

namespace Ingest

/-- A typed field value as produced by `convert_row`: Python `None`, `int`,
`float` (modelled over `Rat`), or `str`. -/
inductive Value where
  | null : Value
  | intVal : Int → Value
  | realVal : Rat → Value
  | textVal : String → Value
  deriving DecidableEq, Repr

/-- A typed row: the tuple `convert_row` returns, aligned with the declared
column list of its table. -/
abbrev Row := List Value

/-- A parsed source record as `csv.DictReader` yields it: an association list
from header field names to raw field strings. -/
abbrev SrcRow := List (String × String)

/-- Python whitespace characters stripped by `str.strip()` (ASCII part). -/
def isPySpace (c : Char) : Bool :=
  c = ' ' || c = '\t' || c = '\n' || c = '\r' || c = '\x0b' || c = '\x0c'

/-- Model of Python `str.strip()`: remove leading and trailing whitespace. -/
def pyStrip (s : String) : String :=
  String.mk (((s.toList.dropWhile isPySpace).reverse.dropWhile isPySpace).reverse)

/-- Numeric value of a list of decimal digit characters. -/
def digitsVal (l : List Char) : Nat :=
  l.foldl (fun a c => a * 10 + (c.toNat - 48)) 0

/-- A nonempty all-digit character list. -/
def isDigits (l : List Char) : Bool :=
  !l.isEmpty && l.all Char.isDigit

/-- Model of Python `int(s)` on an already-stripped string: optional sign
followed by one or more decimal digits; anything else raises `ValueError`
(here: `none`). -/
def pyParseInt (s : String) : Option Int :=
  match s.toList with
  | '+' :: rest => if isDigits rest then some (digitsVal rest : Int) else none
  | '-' :: rest => if isDigits rest then some (-(digitsVal rest : Int)) else none
  | l => if isDigits l then some (digitsVal l : Int) else none

/-- Mantissa of a float literal: digit run with an optional single point,
at least one digit overall. Returns the value as a rational. -/
def parseMantissa (l : List Char) : Option Rat :=
  match l.splitOn '.' with
  | [ip] => if isDigits ip then some ((digitsVal ip : Int) : Rat) else none
  | [ip, fp] =>
      if (ip.all Char.isDigit && fp.all Char.isDigit && !(ip.isEmpty && fp.isEmpty)) then
        some (((digitsVal (ip ++ fp) : Int) : Rat) / ((10 : Rat) ^ fp.length))
      else none
  | _ => none

/-- Optional exponent part after `e`/`E`: optional sign and digits. -/
def parseExp (l : List Char) : Option Int :=
  match l with
  | '+' :: rest => if isDigits rest then some (digitsVal rest : Int) else none
  | '-' :: rest => if isDigits rest then some (-(digitsVal rest : Int)) else none
  | _ => if isDigits l then some (digitsVal l : Int) else none

/-- Model of Python `float(s)` on an already-stripped string, restricted to
the finite decimal literal grammar: optional sign, mantissa with optional
point, optional exponent. A non-matching string raises `ValueError` (here:
`none`). -/
def pyParseFloat (s : String) : Option Rat :=
  let core : List Char → Option Rat := fun l =>
    match l.splitOn 'e' with
    | [m] =>
        match m.splitOn 'E' with
        | [m0] => parseMantissa m0
        | [m0, e0] => do pure ((← parseMantissa m0) * (10 : Rat) ^ (← parseExp e0))
        | _ => none
    | [m, e] => do pure ((← parseMantissa m) * (10 : Rat) ^ (← parseExp e))
    | _ => none
  match s.toList with
  | '+' :: rest => core rest
  | '-' :: rest => do pure (-(← core rest))
  | l => core l

/-- Per-table configuration, mirroring one entry of `TABLE_CONFIGS`: the file
name, the declared column list, and which columns are float- or int-coerced. -/
structure TableConfig where
  file : String
  columns : List String
  float_fields : List String
  int_fields : List String
  deriving DecidableEq, Repr

/-- `TABLE_CONFIGS["customers"]`. -/
def customersConfig : TableConfig :=
  { file := "customers.csv"
    columns := ["customer_id", "name", "email", "city", "state", "signup_date",
                "loyalty_tier"]
    float_fields := []
    int_fields := [] }

/-- `TABLE_CONFIGS["products"]`. -/
def productsConfig : TableConfig :=
  { file := "products.csv"
    columns := ["product_id", "product_name", "category", "price", "cost",
                "currency", "stock_status"]
    float_fields := ["price", "cost"]
    int_fields := [] }

/-- `TABLE_CONFIGS["orders"]`. -/
def ordersConfig : TableConfig :=
  { file := "orders.csv"
    columns := ["order_id", "customer_id", "order_date", "order_status",
                "payment_method", "order_total", "ship_city", "ship_state"]
    float_fields := ["order_total"]
    int_fields := [] }

/-- `TABLE_CONFIGS["order_items"]`. -/
def orderItemsConfig : TableConfig :=
  { file := "order_items.csv"
    columns := ["order_id", "product_id", "quantity", "item_price",
                "item_discount"]
    float_fields := ["item_price", "item_discount"]
    int_fields := ["quantity"] }

/-- `TABLE_CONFIGS["reviews"]`. -/
def reviewsConfig : TableConfig :=
  { file := "reviews.csv"
    columns := ["review_id", "order_id", "customer_id", "product_id", "rating",
                "review_text", "review_date"]
    float_fields := []
    int_fields := ["rating"] }

/-- The `TABLE_CONFIGS` dictionary as an association list. -/
def TABLE_CONFIGS : List (String × TableConfig) :=
  [("customers", customersConfig), ("products", productsConfig),
   ("orders", ordersConfig), ("order_items", orderItemsConfig),
   ("reviews", reviewsConfig)]

/-- `LOAD_SEQUENCE` from the source: the forward dependency order. -/
def LOAD_SEQUENCE : List String :=
  ["customers", "products", "orders", "order_items", "reviews"]

/-- Model of `row.get(column)` on a `csv.DictReader` row dictionary: the field
string for an exactly matching header name, `none` when the header lacks the
column. -/
def lookupField (row : SrcRow) (column : String) : Option String :=
  (row.find? (fun p => p.1 = column)).map (fun p => p.2)

/-- One loop iteration of `convert_row` for a single declared column:
`value = row.get(column, "").strip()`; empty becomes `None`; a float field is
parsed with `float`, an int field with `int` (each raising `ValueError` on
failure), anything else passes through as text. -/
def convertField (row : SrcRow) (config : TableConfig) (column : String) :
    Except String Value :=
  let value := pyStrip ((lookupField row column).getD "")
  if value = "" then .ok .null
  else if column ∈ config.float_fields then
    match pyParseFloat value with
    | some q => .ok (.realVal q)
    | none => .error ("ValueError: could not convert string to float: " ++ value)
  else if column ∈ config.int_fields then
    match pyParseInt value with
    | some i => .ok (.intVal i)
    | none => .error ("ValueError: invalid literal for int: " ++ value)
  else .ok (.textVal value)

/-- The `for column in config["columns"]` loop of `convert_row`, building the
converted list front to back and propagating the first `ValueError`. -/
def convertFields (row : SrcRow) (config : TableConfig) :
    List String → Except String (List Value)
  | [] => .ok []
  | c :: cs =>
      match convertField row config c with
      | .error e => .error e
      | .ok v =>
          match convertFields row config cs with
          | .error e => .error e
          | .ok vs => .ok (v :: vs)

/-- `convert_row(row, config)`: the typed tuple for one source record, aligned
with the declared column order. -/
def convert_row (row : SrcRow) (config : TableConfig) : Except String Row :=
  convertFields row config config.columns

/-- The constraints a `CREATE TABLE` statement of `SCHEMAS` declares, as the
SQLite engine enforces them on insert: columns declared `NOT NULL`, the
primary-key column list, and the foreign keys as (local column, parent table,
parent column) triples. Per SQLite semantics a non-INTEGER `PRIMARY KEY`
column does not imply `NOT NULL`, and a foreign key is vacuously satisfied by
a null child value. -/
structure TableSchema where
  notNull : List String
  pk : List String
  fks : List (String × String × String)
  deriving DecidableEq, Repr

/-- Constraints of `SCHEMAS["customers"]`. -/
def customersSchema : TableSchema :=
  { notNull := ["name", "email"], pk := ["customer_id"], fks := [] }

/-- Constraints of `SCHEMAS["products"]`. -/
def productsSchema : TableSchema :=
  { notNull := ["product_name"], pk := ["product_id"], fks := [] }

/-- Constraints of `SCHEMAS["orders"]`. -/
def ordersSchema : TableSchema :=
  { notNull := ["customer_id"], pk := ["order_id"],
    fks := [("customer_id", "customers", "customer_id")] }

/-- Constraints of `SCHEMAS["order_items"]`. -/
def orderItemsSchema : TableSchema :=
  { notNull := ["order_id", "product_id"], pk := ["order_id", "product_id"],
    fks := [("order_id", "orders", "order_id"),
            ("product_id", "products", "product_id")] }

/-- Constraints of `SCHEMAS["reviews"]`. -/
def reviewsSchema : TableSchema :=
  { notNull := ["order_id", "customer_id", "product_id"], pk := ["review_id"],
    fks := [("order_id", "orders", "order_id"),
            ("customer_id", "customers", "customer_id"),
            ("product_id", "products", "product_id")] }

/-- The constraint set of `SCHEMAS[t]`; an unknown table has no constraints. -/
def schemaOf (t : String) : TableSchema :=
  match t with
  | "customers" => customersSchema
  | "products" => productsSchema
  | "orders" => ordersSchema
  | "order_items" => orderItemsSchema
  | "reviews" => reviewsSchema
  | _ => { notNull := [], pk := [], fks := [] }

/-- The declared column list of table `t` (`TABLE_CONFIGS[t]["columns"]`),
which is also the column list every insert statement names. -/
def columnsOf (t : String) : List String :=
  match t with
  | "customers" => customersConfig.columns
  | "products" => productsConfig.columns
  | "orders" => ordersConfig.columns
  | "order_items" => orderItemsConfig.columns
  | "reviews" => reviewsConfig.columns
  | _ => []

/-- Value of column `c` in a stored row of table `t`: the tuple component at
the position of `c` in the table's column list (`null` if absent). -/
def valOf (t : String) (r : Row) (c : String) : Value :=
  match (columnsOf t).indexOf? c with
  | some i => r.getD i .null
  | none => .null

/-- The SQLite database file contents: the five tables' stored rows and
whether the `CREATE TABLE` statements have been applied. -/
structure DBState where
  customers : List Row
  products : List Row
  orders : List Row
  order_items : List Row
  reviews : List Row
  created : Bool
  deriving DecidableEq, Repr

/-- Stored rows of table `t`. -/
def getTable (db : DBState) (t : String) : List Row :=
  match t with
  | "customers" => db.customers
  | "products" => db.products
  | "orders" => db.orders
  | "order_items" => db.order_items
  | "reviews" => db.reviews
  | _ => []

/-- Replace the stored rows of table `t`. -/
def setTable (db : DBState) (t : String) (rs : List Row) : DBState :=
  match t with
  | "customers" => { db with customers := rs }
  | "products" => { db with products := rs }
  | "orders" => { db with orders := rs }
  | "order_items" => { db with order_items := rs }
  | "reviews" => { db with reviews := rs }
  | _ => db

/-- Two rows conflict on a primary key when every key column holds equal
non-null values (SQLite treats nulls as distinct in unique indexes). -/
def pkConflict (t : String) (r r2 : Row) : Bool :=
  (schemaOf t).pk.all (fun c =>
    !(decide (valOf t r c = .null)) && decide (valOf t r c = valOf t r2 c))

/-- The constraint check SQLite performs when one row is inserted into table
`t` against the visible table contents `w`: every `NOT NULL` column is
non-null, no existing row conflicts on the primary key, and (when foreign-key
enforcement is on) every non-null foreign key value matches some row of the
parent table. -/
def rowOK (w : DBState) (fk_enforced : Bool) (t : String) (r : Row) : Bool :=
  (schemaOf t).notNull.all (fun c => !(decide (valOf t r c = .null))) &&
  (getTable w t).all (fun r2 => !(pkConflict t r r2)) &&
  (!fk_enforced ||
    (schemaOf t).fks.all (fun fk =>
      decide (valOf t r fk.1 = .null) ||
      (getTable w fk.2.1).any (fun p => decide (valOf fk.2.1 p fk.2.2 = valOf t r fk.1))))

/-- The `sqlite3.Connection` in its default (legacy autocommit) isolation
mode: the committed database file, the working copy of an implicitly opened
transaction when one is pending, and the session's foreign-key pragma. A
data-modification statement executes against the working copy, opening a
transaction from the committed state when none is open; data-definition
statements join an open transaction but otherwise apply directly; `commit`
promotes the working copy and `rollback` discards it. -/
structure Conn where
  db : DBState
  txn : Option DBState
  fk_on : Bool
  deriving DecidableEq, Repr

/-- The table contents statements of this connection currently see. -/
def currentTables (c : Conn) : DBState := c.txn.getD c.db

/-- Execute one DML statement: apply it to the working copy, implicitly
opening a transaction from the committed state when none is open. -/
def execDML (f : DBState → DBState) (c : Conn) : Conn :=
  { c with txn := some (f (currentTables c)) }

/-- Execute one DDL statement: it joins an open transaction, and otherwise
runs in autocommit mode, changing the committed state directly. -/
def execDDL (f : DBState → DBState) (c : Conn) : Conn :=
  match c.txn with
  | none => { c with db := f c.db }
  | some w => { c with txn := some (f w) }

/-- `conn.commit()`, as the `with conn:` block issues on normal exit: promote
the open transaction (a no-op when none is open). -/
def commitConn (c : Conn) : Conn :=
  { db := currentTables c, txn := none, fk_on := c.fk_on }

/-- `conn.rollback()`, as `with conn:` and `with sqlite3.connect(...)` issue
when an exception passes through: discard the open transaction. -/
def rollbackConn (c : Conn) : Conn :=
  { c with txn := none }

/-- Row-by-row execution of `conn.executemany` for an insert: each row is a
DML statement, checked against the connection's visible contents and appended
in order; the first violating row raises `IntegrityError`. -/
def insertAll (t : String) (c : Conn) : List Row → Except String Conn
  | [] => .ok c
  | r :: rs =>
      if rowOK (currentTables c) c.fk_on t r then
        insertAll t (execDML (fun w => setTable w t (getTable w t ++ [r])) c) rs
      else .error ("IntegrityError: " ++ t)

/-- The bulk insert statement `insert_rows` builds: the declared column list
and one placeholder per column, joined by commas. -/
def insertQuery (t : String) : String :=
  "INSERT INTO " ++ t ++ " ("
    ++ String.intercalate ", " (columnsOf t) ++ ") VALUES ("
    ++ String.intercalate ", " ((columnsOf t).map (fun _ => "?")) ++ ")"

/-- `insert_rows(conn, table_name, rows)`: nothing happens and `0` is returned
for an empty row list; otherwise one bulk insert statement is built from the
declared columns and executed, and the row count is returned. The result also
carries the SQL statements issued. -/
def insert_rows (c : Conn) (t : String) (rows : List Row) :
    Except String (Conn × Nat × List String) :=
  if rows.isEmpty then .ok (c, 0, [])
  else
    match insertAll t c rows with
    | .ok c2 => .ok (c2, rows.length, [insertQuery t])
    | .error e => .error e

/-- The parsed contents of the data directory: for each table name, the list
of source records of its backing file, or `none` when the file is missing
(`FileNotFoundError`). -/
abbrev Files := String → Option (List SrcRow)

/-- The `for row in reader` loop of `read_rows`: convert every record in file
order, front to back, propagating the first exception. -/
def convertAll (config : TableConfig) : List SrcRow → Except String (List Row)
  | [] => .ok []
  | r0 :: rest =>
      match convert_row r0 config with
      | .error e => .error e
      | .ok r =>
          match convertAll config rest with
          | .error e => .error e
          | .ok rs => .ok (r :: rs)

/-- `read_rows(table_name)`: look up the table's configuration, open its
backing file (a missing file is fatal), and convert every record in file
order. -/
def read_rows (files : Files) (t : String) : Except String (List Row) :=
  match (TABLE_CONFIGS.find? (fun p => p.1 = t)).map (fun p => p.2) with
  | none => .error ("KeyError: " ++ t)
  | some config =>
      match files t with
      | none => .error ("FileNotFoundError: " ++ config.file)
      | some recs => convertAll config recs

/-- `create_tables(conn)`: issue the idempotent `CREATE TABLE IF NOT EXISTS`
statements (DDL, so they run in autocommit mode when no transaction is
open). -/
def create_tables (c : Conn) : Conn :=
  execDDL (fun w => { w with created := true }) c

/-- `clear_tables(conn)`: delete all rows of every table, iterating
`LOAD_SEQUENCE` in reverse; each `DELETE` is a DML statement, so the first
one implicitly opens a transaction that stays pending until the next commit
or rollback. Also reports the delete statements issued in order. -/
def clear_tables (c : Conn) : Conn × List String :=
  LOAD_SEQUENCE.reverse.foldl
    (fun acc t => (execDML (fun w => setTable w t []) acc.1,
      acc.2 ++ ["DELETE FROM " ++ t]))
    (c, [])

/-- The observable outcome of `main`: the committed database file at the end,
the summary dictionary (in insertion order), the delete and insert statements
issued, the uncaught exception if one aborted the run, and the session's
foreign-key pragma. -/
structure RunOutcome where
  db : DBState
  summary : List (String × Nat)
  stmts : List String
  error : Option String
  fk_on : Bool
  deriving DecidableEq, Repr

/-- The `for table in LOAD_SEQUENCE` loop of `main`: read the table's rows,
then insert them inside `with conn:`, whose exit commits the open transaction
(on the first table this transaction also holds the pending clears) or rolls
it back when the block raises. An uncaught exception aborts the loop and
reaches `with sqlite3.connect(...)`, which rolls back whatever transaction is
still open; a normal exit of the connection block commits. -/
def loadLoop (files : Files) :
    List String → Conn → List (String × Nat) → List String → RunOutcome
  | [], c, summary, stmts => ⟨(commitConn c).db, summary, stmts, none, c.fk_on⟩
  | t :: rest, c, summary, stmts =>
      match read_rows files t with
      | .error e => ⟨(rollbackConn c).db, summary, stmts, some e, c.fk_on⟩
      | .ok rows =>
          match insert_rows c t rows with
          | .error e => ⟨(rollbackConn c).db, summary, stmts, some e, c.fk_on⟩
          | .ok (c2, n, newStmts) =>
              loadLoop files rest (commitConn c2) (summary ++ [(t, n)])
                (stmts ++ newStmts)

/-- `main()`: open the connection, enable foreign-key enforcement for the
session, create the tables, clear them in reverse dependency order, and load
each table of `LOAD_SEQUENCE` in forward order. -/
def runMain (files : Files) (init : DBState) : RunOutcome :=
  let c0 : Conn := { db := init, txn := none, fk_on := false }
  let c1 : Conn := { c0 with fk_on := true }
  let c2 := create_tables c1
  let cleared := clear_tables c2
  loadLoop files LOAD_SEQUENCE cleared.1 [] cleared.2

/-- The lines `main` prints: the final summary loop runs only after the
`with sqlite3.connect(...)` block finishes normally, so an uncaught exception
reaches the caller before anything is printed. -/
def printedLines (o : RunOutcome) : List String :=
  match o.error with
  | none => o.summary.map (fun p => p.1 ++ ": inserted " ++ toString p.2 ++ " rows")
  | some _ => []

/-- Modelled from the spec: the per-field conversion rule as the spec words
it — trim surrounding whitespace; if the resulting value is empty, emit null;
else coerce using the column's declared type: integer parse if the column is
declared integer, decimal parse if declared decimal, pass through as text
otherwise. Stated for comparison with `convertField`, which checks the
decimal declaration first. -/
def spec_convert_field (row : SrcRow) (config : TableConfig) (column : String) :
    Except String Value :=
  let value := pyStrip ((lookupField row column).getD "")
  if value = "" then .ok .null
  else if column ∈ config.int_fields then
    match pyParseInt value with
    | some i => .ok (.intVal i)
    | none => .error ("ValueError: invalid literal for int: " ++ value)
  else if column ∈ config.float_fields then
    match pyParseFloat value with
    | some q => .ok (.realVal q)
    | none => .error ("ValueError: could not convert string to float: " ++ value)
  else .ok (.textVal value)

/-- A stored row of table `t` satisfies the table's declared constraints with
respect to database `db`: every `NOT NULL` column is non-null, and every
foreign-key column is null or matched by a parent row. -/
def satRow (db : DBState) (t : String) (r : Row) : Prop :=
  (∀ c ∈ (schemaOf t).notNull, valOf t r c ≠ .null) ∧
  (∀ fk ∈ (schemaOf t).fks,
    valOf t r fk.1 = .null ∨
    ∃ p ∈ getTable db fk.2.1, valOf fk.2.1 p fk.2.2 = valOf t r fk.1)

/-- Every stored row of every table satisfies its declared constraints. -/
def dbOK (db : DBState) : Prop :=
  ∀ t r, r ∈ getTable db t → satRow db t r

/-- The transaction working copy right after `create_tables` and
`clear_tables`: all five tables empty and the tables created. -/
def clearedDB : DBState :=
  ⟨[], [], [], [], [], true⟩

/-- The delete statements `clear_tables` issues, in order. -/
def deleteStmts : List String :=
  ["DELETE FROM reviews", "DELETE FROM order_items", "DELETE FROM orders",
   "DELETE FROM products", "DELETE FROM customers"]

/-- An empty starting database file for concrete runs. -/
def db0 : DBState :=
  ⟨[], [], [], [], [], false⟩

/-- A starting database file holding one stale review row from an earlier
population of the store. -/
def exStaleInit : DBState :=
  ⟨[], [], [], [], [[Value.textVal "R9"]], false⟩

/-- A data directory whose customers file is missing and whose other files
are present and empty: the run aborts while reading the very first table. -/
def exMissingFiles : Files :=
  fun t => if t = "customers" then none else some []

/-- A data directory in which every backing file exists and holds no data
records: the run succeeds and inserts zero rows everywhere. -/
def exEmptyFiles : Files :=
  fun _ => some []

/-- A data directory whose customers file holds one well-formed record and
whose products file holds a record with the non-numeric price `abc`: the run
loads customers and then aborts while reading products. -/
def exFailFiles : Files :=
  fun t =>
    if t = "customers" then
      some [[("customer_id", "C1"), ("name", "Alice"), ("email", "a@ex.com")]]
    else if t = "products" then
      some [[("product_id", "P1"), ("product_name", "Widget"), ("price", "abc")]]
    else some []

/-! ## Basic lemmas about field conversion -/

lemma pyStrip_empty : pyStrip "" = "" := rfl

lemma convertField_missing (row : SrcRow) (config : TableConfig) (c : String)
    (h : lookupField row c = none) : convertField row config c = .ok .null := by
  simp [convertField, h, pyStrip_empty]

lemma convertField_congr (row1 row2 : SrcRow) (config : TableConfig) (c : String)
    (h : lookupField row1 c = lookupField row2 c) :
    convertField row1 config c = convertField row2 config c := by
  simp only [convertField, h]

lemma convertField_ok_ne_empty_text (row : SrcRow) (config : TableConfig)
    (c : String) (v : Value) (h : convertField row config c = .ok v) :
    v ≠ Value.textVal "" := by
  simp only [convertField] at h
  by_cases h0 : pyStrip ((lookupField row c).getD "") = ""
  · simp only [h0, if_pos rfl] at h
    cases h
    intro hc
    cases hc
  · rw [if_neg h0] at h
    split_ifs at h with h1 h2
    · cases hp : pyParseFloat (pyStrip ((lookupField row c).getD "")) <;>
        rw [hp] at h <;> cases h
      intro hc
      cases hc
    · cases hp : pyParseInt (pyStrip ((lookupField row c).getD "")) <;>
        rw [hp] at h <;> cases h
      intro hc
      cases hc
    · cases h
      intro hc
      injection hc with hc2
      exact h0 hc2

lemma convertFields_length (row : SrcRow) (config : TableConfig) :
    ∀ (cols : List String) (vs : List Value),
      convertFields row config cols = .ok vs → vs.length = cols.length := by
  intro cols
  induction cols with
  | nil =>
      intro vs h
      cases h
      rfl
  | cons c cs ih =>
      intro vs h
      simp only [convertFields] at h
      cases hv : convertField row config c <;> rw [hv] at h
      · cases h
      · cases hr : convertFields row config cs <;> rw [hr] at h
        · cases h
        · cases h
          simp [ih _ hr]

lemma convertFields_get (row : SrcRow) (config : TableConfig) :
    ∀ (cols : List String) (vs : List Value),
      convertFields row config cols = .ok vs →
      ∀ (i : Nat) (c : String), cols[i]? = some c →
        ∃ v, vs[i]? = some v ∧ convertField row config c = .ok v := by
  intro cols
  induction cols with
  | nil =>
      intro vs _ i c hc
      simp at hc
  | cons c0 cs ih =>
      intro vs h i c hc
      simp only [convertFields] at h
      cases hv : convertField row config c0 <;> rw [hv] at h
      · cases h
      · cases hr : convertFields row config cs <;> rw [hr] at h
        · cases h
        · cases h
          cases i with
          | zero =>
              simp at hc
              subst hc
              exact ⟨_, by simp, hv⟩
          | succ j =>
              simp only [List.getElem?_cons_succ] at hc ⊢
              exact ih _ hr j c hc

lemma convertFields_mem (row : SrcRow) (config : TableConfig) :
    ∀ (cols : List String) (vs : List Value),
      convertFields row config cols = .ok vs →
      ∀ v ∈ vs, ∃ c ∈ cols, convertField row config c = .ok v := by
  intro cols
  induction cols with
  | nil =>
      intro vs h v hv
      cases h
      simp at hv
  | cons c0 cs ih =>
      intro vs h v hv
      simp only [convertFields] at h
      cases hcv : convertField row config c0 <;> rw [hcv] at h
      · cases h
      · cases hr : convertFields row config cs <;> rw [hr] at h
        · cases h
        · cases h
          rcases List.mem_cons.mp hv with h1 | h1
          · subst h1
            exact ⟨c0, List.mem_cons_self _ _, hcv⟩
          · obtain ⟨c, hc, hcc⟩ := ih _ hr v h1
            exact ⟨c, List.mem_cons_of_mem _ hc, hcc⟩

lemma convertFields_congr (row1 row2 : SrcRow) (config : TableConfig)
    (cols : List String) (h : ∀ c ∈ cols, lookupField row1 c = lookupField row2 c) :
    convertFields row1 config cols = convertFields row2 config cols := by
  induction cols with
  | nil => rfl
  | cons c0 cs ih =>
      simp only [convertFields]
      rw [convertField_congr row1 row2 config c0 (h c0 (List.mem_cons_self _ _)),
        ih (fun c hc => h c (List.mem_cons_of_mem _ hc))]

lemma convertFields_error (row : SrcRow) (config : TableConfig) :
    ∀ (cols : List String) (c : String) (e : String), c ∈ cols →
      convertField row config c = .error e →
      ∃ e2, convertFields row config cols = .error e2 := by
  intro cols
  induction cols with
  | nil =>
      intro c e hc
      simp at hc
  | cons c0 cs ih =>
      intro c e hc he
      rcases List.mem_cons.mp hc with h1 | h1
      · subst h1
        exact ⟨e, by simp only [convertFields, he]⟩
      · simp only [convertFields]
        cases hcv : convertField row config c0
        · exact ⟨_, rfl⟩
        · obtain ⟨e2, he2⟩ := ih c e h1 he
          rw [he2]
          exact ⟨e2, rfl⟩

lemma convertField_eq_spec (row : SrcRow) (config : TableConfig) (column : String)
    (hd : ∀ c ∈ config.int_fields, c ∉ config.float_fields) :
    convertField row config column = spec_convert_field row config column := by
  simp only [convertField, spec_convert_field]
  by_cases h0 : pyStrip ((lookupField row column).getD "") = ""
  · simp [h0]
  · by_cases h1 : column ∈ config.float_fields <;>
      by_cases h2 : column ∈ config.int_fields
    · exact absurd h1 (hd column h2)
    · simp [h0, h1, h2]
    · simp [h0, h1, h2]
    · simp [h0, h1, h2]

/-! ## Claim theorems about field conversion -/

/-- Claim C1: for every entity configuration and every field, `convert_row`
follows the spec conversion rule — trim, empty becomes null, integer parse
for declared-integer columns, decimal parse for declared-decimal columns,
text passthrough otherwise — and its output never contains an empty text
value, for every column including identifiers. -/
theorem convert_row_follows_conversion_rule :
    (∀ name config, (name, config) ∈ TABLE_CONFIGS → ∀ (row : SrcRow) (column : String),
      convertField row config column = spec_convert_field row config column) ∧
    (∀ config (row : SrcRow) (vs : List Value),
      convert_row row config = .ok vs → Value.textVal "" ∉ vs) := by
  constructor
  · intro name config hmem row column
    apply convertField_eq_spec
    fin_cases hmem <;> decide
  · intro config row vs h hmem
    obtain ⟨c, _, hc⟩ := convertFields_mem row config config.columns vs h _ hmem
    exact convertField_ok_ne_empty_text row config c _ hc rfl

/-- Witness for C1 at the order_items configuration and a concrete record:
the code conversion and the spec rule agree, and the converted tuple holds no
empty text value. -/
theorem convert_row_follows_conversion_rule_witness :
    convertField [("quantity", " 7 ")] orderItemsConfig "quantity"
        = spec_convert_field [("quantity", " 7 ")] orderItemsConfig "quantity" ∧
      Value.textVal "" ∉ [Value.null, Value.null, Value.intVal 7, Value.null, Value.null] := by
  constructor
  · exact convert_row_follows_conversion_rule.1 "order_items" orderItemsConfig
      (by decide) [("quantity", " 7 ")] "quantity"
  · exact convert_row_follows_conversion_rule.2 orderItemsConfig
      [("quantity", " 7 ")] _ rfl

/-! ## Basic lemmas about the database state -/

lemma getTable_setTable_same (db : DBState) (t : String) (rs : List Row)
    (ht : t ∈ LOAD_SEQUENCE) : getTable (setTable db t rs) t = rs := by
  fin_cases ht <;> rfl

lemma getTable_setTable_other (db : DBState) (t t2 : String) (rs : List Row)
    (hne : t2 ≠ t) : getTable (setTable db t rs) t2 = getTable db t2 := by
  unfold setTable
  split <;> (try rfl) <;>
    (unfold getTable; split <;> (try rfl) <;> exact absurd rfl hne)

lemma setTable_created (db : DBState) (t : String) (rs : List Row) :
    (setTable db t rs).created = db.created := by
  unfold setTable
  split <;> rfl

lemma getTable_set_created (db : DBState) (t : String) :
    getTable { db with created := true } t = getTable db t := by
  unfold getTable
  split <;> rfl

lemma getTable_clearedDB (t : String) : getTable clearedDB t = [] := by
  unfold getTable
  split <;> rfl

lemma DBState_set_created (x : DBState) (h : x.created = true) :
    { x with created := true } = x := by
  cases x
  subst h
  rfl

lemma RunOutcome_ext (a b : RunOutcome) (h1 : a.db = b.db)
    (h2 : a.summary = b.summary) (h3 : a.stmts = b.stmts)
    (h4 : a.error = b.error) (h5 : a.fk_on = b.fk_on) : a = b := by
  cases a
  cases b
  simp_all

lemma currentTables_execDML (f : DBState → DBState) (c : Conn) :
    currentTables (execDML f c) = f (currentTables c) := rfl

lemma execDML_db (f : DBState → DBState) (c : Conn) :
    (execDML f c).db = c.db := rfl

lemma execDML_fk (f : DBState → DBState) (c : Conn) :
    (execDML f c).fk_on = c.fk_on := rfl

lemma commitConn_db (c : Conn) : (commitConn c).db = currentTables c := rfl

lemma currentTables_commitConn (c : Conn) :
    currentTables (commitConn c) = currentTables c := rfl

lemma commitConn_fk (c : Conn) : (commitConn c).fk_on = c.fk_on := rfl

/-! ## Lemmas about row insertion -/

lemma insertAll_ok (t : String) :
    ∀ (rows : List Row) (c c2 : Conn), insertAll t c rows = .ok c2 →
      c2.fk_on = c.fk_on ∧ c2.db = c.db ∧
      (currentTables c2).created = (currentTables c).created ∧
      (∀ t2, t2 ≠ t →
        getTable (currentTables c2) t2 = getTable (currentTables c) t2) ∧
      (t ∈ LOAD_SEQUENCE →
        getTable (currentTables c2) t = getTable (currentTables c) t ++ rows) := by
  intro rows
  induction rows with
  | nil =>
      intro c c2 h
      cases h
      exact ⟨rfl, rfl, rfl, fun _ _ => rfl, fun _ => by simp⟩
  | cons r rest ih =>
      intro c c2 h
      simp only [insertAll] at h
      split_ifs at h with hok
      obtain ⟨h1, h2, h3, h4, h5⟩ := ih _ _ h
      refine ⟨h1, h2, ?_, ?_, ?_⟩
      · rw [h3, currentTables_execDML, setTable_created]
      · intro t2 hne
        rw [h4 t2 hne, currentTables_execDML,
          getTable_setTable_other _ _ _ _ hne]
      · intro ht
        rw [h5 ht, currentTables_execDML, getTable_setTable_same _ _ _ ht]
        simp

lemma insert_rows_ok (c c2 : Conn) (t : String) (rows : List Row)
    (n : Nat) (st : List String)
    (h : insert_rows c t rows = .ok (c2, n, st)) :
    n = rows.length ∧ c2.fk_on = c.fk_on ∧ c2.db = c.db ∧
    (currentTables c2).created = (currentTables c).created ∧
    (∀ t2, t2 ≠ t →
      getTable (currentTables c2) t2 = getTable (currentTables c) t2) ∧
    (t ∈ LOAD_SEQUENCE →
      getTable (currentTables c2) t = getTable (currentTables c) t ++ rows) ∧
    (∀ s ∈ st, ∃ u, s = "INSERT INTO " ++ u) := by
  simp only [insert_rows] at h
  split_ifs at h with hemp
  · cases h
    rw [List.isEmpty_iff.mp hemp]
    refine ⟨rfl, rfl, rfl, rfl, fun _ _ => rfl, fun _ => by simp, ?_⟩
    intro s hs
    simp at hs
  · cases hins : insertAll t c rows <;> rw [hins] at h
    · cases h
    · cases h
      obtain ⟨h1, h2, h3, h4, h5⟩ := insertAll_ok t rows c _ hins
      refine ⟨rfl, h1, h2, h3, h4, h5, ?_⟩
      intro s hs
      rw [List.mem_singleton.mp hs]
      exact ⟨_, rfl⟩

/-! ## The main loop specification -/

lemma loadLoop_spec (files : Files) :
    ∀ (ts : List String), ts.Nodup → (∀ t ∈ ts, t ∈ LOAD_SEQUENCE) →
    ∀ (c : Conn) (summary : List (String × Nat)) (stmts : List String)
      (o : RunOutcome), loadLoop files ts c summary stmts = o →
      (∀ t ∈ ts, getTable (currentTables c) t = []) →
      ∃ (N : Nat) (tail : List (String × Nat)) (more : List String),
        o.summary = summary ++ tail ∧
        o.stmts = stmts ++ more ∧
        tail.map Prod.fst = ts.take N ∧
        (o.error = none → N = ts.length) ∧
        o.fk_on = c.fk_on ∧
        (∀ p ∈ tail, ∃ rows, read_rows files p.1 = .ok rows ∧
          p.2 = rows.length ∧ getTable o.db p.1 = rows) ∧
        (o.error ≠ none → N = 0 → o.db = c.db) ∧
        ((o.error = none ∨ 1 ≤ N) →
          (∀ t ∈ ts.drop N, getTable o.db t = []) ∧
          (∀ t2, t2 ∉ ts → getTable o.db t2 = getTable (currentTables c) t2) ∧
          o.db.created = (currentTables c).created) ∧
        (∀ s ∈ more, ∃ u, s = "INSERT INTO " ++ u) := by
  intro ts
  induction ts with
  | nil =>
      intro _ _ c summary stmts o h _
      subst h
      refine ⟨0, [], [], by simp [loadLoop], by simp [loadLoop], rfl,
        fun _ => rfl, rfl, by simp, ?_, ?_, by simp⟩
      · intro hne _
        exact absurd rfl hne
      · intro _
        exact ⟨by simp, fun t2 _ => rfl, rfl⟩
  | cons t rest ih =>
      intro hnd hsub c summary stmts o h hemp
      simp only [loadLoop] at h
      split at h
      · rename_i e hr
        subst h
        refine ⟨0, [], [], by simp, by simp, rfl, ?_, rfl, by simp, ?_, ?_,
          by simp⟩
        · intro habs
          simp at habs
        · intro _ _
          rfl
        · intro hok
          rcases hok with h0 | h0
          · simp at h0
          · omega
      · rename_i rows hr
        split at h
        · rename_i e hi
          subst h
          refine ⟨0, [], [], by simp, by simp, rfl, ?_, rfl, by simp, ?_, ?_,
            by simp⟩
          · intro habs
            simp at habs
          · intro _ _
            rfl
          · intro hok
            rcases hok with h0 | h0
            · simp at h0
            · omega
        · rename_i c2 n stmts2 hi
          have hins := insert_rows_ok c c2 t rows n stmts2 hi
          have htL : t ∈ LOAD_SEQUENCE := hsub t (List.mem_cons_self _ _)
          have htrest : t ∉ rest := (List.nodup_cons.mp hnd).1
          have hemp2 : ∀ t2 ∈ rest,
              getTable (currentTables (commitConn c2)) t2 = [] := by
            intro t2 ht2
            rw [currentTables_commitConn,
              hins.2.2.2.2.1 t2 (fun he => htrest (he ▸ ht2)),
              hemp t2 (List.mem_cons_of_mem _ ht2)]
          obtain ⟨N, tail, more, h1, h2, h3, h4, h5, h6, h7, h8, h9⟩ :=
            ih (List.nodup_cons.mp hnd).2
              (fun t2 ht2 => hsub t2 (List.mem_cons_of_mem _ ht2))
              (commitConn c2) (summary ++ [(t, n)]) (stmts ++ stmts2) o h hemp2
          have hodb : (∀ t2, t2 ∉ rest →
                getTable o.db t2 = getTable (currentTables c2) t2) ∧
              (∀ t3, t3 ∈ rest.drop N → getTable o.db t3 = []) ∧
              o.db.created = (currentTables c2).created := by
            by_cases he : o.error = none
            · obtain ⟨ha, hb, hc⟩ := h8 (Or.inl he)
              exact ⟨hb, ha, hc⟩
            · rcases Nat.eq_zero_or_pos N with hN | hN
              · have hdb := h7 he hN
                rw [hdb]
                refine ⟨fun t2 _ => rfl, ?_, rfl⟩
                intro t3 ht3
                rw [hN, List.drop_zero] at ht3
                exact hemp2 t3 ht3
              · obtain ⟨ha, hb, hc⟩ := h8 (Or.inr hN)
                exact ⟨hb, ha, hc⟩
          refine ⟨N + 1, (t, n) :: tail, stmts2 ++ more, ?_, ?_, ?_, ?_, ?_,
            ?_, ?_, ?_, ?_⟩
          · rw [h1]
            simp
          · rw [h2]
            simp
          · simp [h3]
          · intro he
            simp [h4 he]
          · rw [h5, commitConn_fk, hins.2.1]
          · intro p hp
            rcases List.mem_cons.mp hp with h0 | h0
            · subst h0
              refine ⟨rows, hr, hins.1, ?_⟩
              rw [hodb.1 t htrest, hins.2.2.2.2.2.1 htL,
                hemp t (List.mem_cons_self _ _)]
              simp
            · exact h6 p h0
          · intro _ hN1
            exact absurd hN1 (Nat.succ_ne_zero N)
          · intro _
            refine ⟨?_, ?_, ?_⟩
            · intro t3 ht3
              exact hodb.2.1 t3 (by simpa using ht3)
            · intro t2 ht2
              rw [hodb.1 t2 (fun hm => ht2 (List.mem_cons_of_mem _ hm)),
                hins.2.2.2.2.1 t2 (fun he => ht2 (he ▸ List.mem_cons_self _ _))]
            · rw [hodb.2.2, hins.2.2.2.1]
          · intro s hs
            rcases List.mem_append.mp hs with h0 | h0
            · exact hins.2.2.2.2.2.2 s h0
            · exact h9 s h0

/-! ## The pipeline as a whole -/

lemma runMain_eq (files : Files) (init : DBState) :
    runMain files init = loadLoop files LOAD_SEQUENCE
      ⟨{ init with created := true }, some clearedDB, true⟩ [] deleteStmts := rfl

lemma runMain_spec (files : Files) (init : DBState) :
    ∃ (N : Nat) (more : List String),
      (runMain files init).stmts = deleteStmts ++ more ∧
      (runMain files init).summary.map Prod.fst = LOAD_SEQUENCE.take N ∧
      ((runMain files init).error = none → N = LOAD_SEQUENCE.length) ∧
      (runMain files init).fk_on = true ∧
      (∀ p ∈ (runMain files init).summary, ∃ rows,
        read_rows files p.1 = .ok rows ∧ p.2 = rows.length ∧
        getTable (runMain files init).db p.1 = rows) ∧
      ((runMain files init).error ≠ none → N = 0 →
        ∀ t2, getTable (runMain files init).db t2 = getTable init t2) ∧
      (((runMain files init).error = none ∨ 1 ≤ N) →
        ∀ t ∈ LOAD_SEQUENCE.drop N, getTable (runMain files init).db t = []) ∧
      (runMain files init).db.created = true ∧
      (∀ s ∈ more, ∃ u, s = "INSERT INTO " ++ u) := by
  obtain ⟨N, tail, more, h1, h2, h3, h4, h5, h6, h7, h8, h9⟩ :=
    loadLoop_spec files LOAD_SEQUENCE (by decide) (fun t ht => ht)
      ⟨{ init with created := true }, some clearedDB, true⟩ [] deleteStmts
      (runMain files init) (runMain_eq files init).symm
      (fun t _ => getTable_clearedDB t)
  have hts : (runMain files init).summary = tail := by simpa using h1
  refine ⟨N, more, h2, by rw [hts, h3], h4, h5, ?_, ?_, ?_, ?_, h9⟩
  · intro p hp
    exact h6 p (by rwa [hts] at hp)
  · intro hne h0 t2
    rw [h7 hne h0]
    exact getTable_set_created init t2
  · intro hor t ht
    exact (h8 hor).1 t ht
  · by_cases he : (runMain files init).error = none
    · exact (h8 (Or.inl he)).2.2
    · rcases Nat.eq_zero_or_pos N with h0 | h0
      · rw [h7 he h0]
      · exact (h8 (Or.inr h0)).2.2

lemma insertAll_cons_txn (t : String) (r : Row) (rest : List Row)
    (db w : DBState) (fk : Bool) :
    insertAll t ⟨db, some w, fk⟩ (r :: rest) =
      if rowOK w fk t r then
        insertAll t ⟨db, some (setTable w t (getTable w t ++ [r])), fk⟩ rest
      else .error ("IntegrityError: " ++ t) := rfl

lemma insertAll_txn (t : String) :
    ∀ (rows : List Row) (w db1 db2 : DBState) (fk : Bool),
      (∀ e, insertAll t ⟨db1, some w, fk⟩ rows = .error e →
        insertAll t ⟨db2, some w, fk⟩ rows = .error e) ∧
      (∀ c2, insertAll t ⟨db1, some w, fk⟩ rows = .ok c2 →
        ∃ w2, c2 = ⟨db1, some w2, fk⟩ ∧
          insertAll t ⟨db2, some w, fk⟩ rows = .ok ⟨db2, some w2, fk⟩) := by
  intro rows
  induction rows with
  | nil =>
      intro w db1 db2 fk
      constructor
      · intro e h
        cases h
      · intro c2 h
        cases h
        exact ⟨w, rfl, rfl⟩
  | cons r rest ih =>
      intro w db1 db2 fk
      constructor
      · intro e h
        rw [insertAll_cons_txn] at h ⊢
        split_ifs at h ⊢ with hok
        · exact ((ih _ db1 db2 fk).1 e h)
        · exact h
      · intro c2 h
        rw [insertAll_cons_txn] at h ⊢
        split_ifs at h ⊢ with hok
        exact ((ih _ db1 db2 fk).2 c2 h)

lemma loadLoop_cons_read_error (files : Files) (t : String)
    (rest : List String) (c : Conn) (summary : List (String × Nat))
    (stmts : List String) (e : String) (hr : read_rows files t = .error e) :
    loadLoop files (t :: rest) c summary stmts =
      ⟨(rollbackConn c).db, summary, stmts, some e, c.fk_on⟩ := by
  simp only [loadLoop, hr]

lemma loadLoop_cons_insert_error (files : Files) (t : String)
    (rest : List String) (c : Conn) (summary : List (String × Nat))
    (stmts : List String) (rows : List Row) (e : String)
    (hr : read_rows files t = .ok rows)
    (hi : insert_rows c t rows = .error e) :
    loadLoop files (t :: rest) c summary stmts =
      ⟨(rollbackConn c).db, summary, stmts, some e, c.fk_on⟩ := by
  simp only [loadLoop, hr, hi]

lemma loadLoop_cons_insert_ok (files : Files) (t : String)
    (rest : List String) (c c2 : Conn) (summary : List (String × Nat))
    (stmts newStmts : List String) (rows : List Row) (n : Nat)
    (hr : read_rows files t = .ok rows)
    (hi : insert_rows c t rows = .ok (c2, n, newStmts)) :
    loadLoop files (t :: rest) c summary stmts =
      loadLoop files rest (commitConn c2) (summary ++ [(t, n)])
        (stmts ++ newStmts) := by
  simp only [loadLoop, hr, hi]

lemma loadLoop_committed_dep (files : Files) (ts : List String) (hne : ts ≠ [])
    (w db1 db2 : DBState) (fk : Bool) (summary : List (String × Nat))
    (stmts : List String) :
    (loadLoop files ts ⟨db1, some w, fk⟩ summary stmts =
        { loadLoop files ts ⟨db2, some w, fk⟩ summary stmts with db := db1 } ∧
      (loadLoop files ts ⟨db2, some w, fk⟩ summary stmts).db = db2) ∨
    loadLoop files ts ⟨db1, some w, fk⟩ summary stmts =
      loadLoop files ts ⟨db2, some w, fk⟩ summary stmts := by
  cases ts with
  | nil => exact absurd rfl hne
  | cons t rest =>
      cases hr : read_rows files t with
      | error e =>
          left
          rw [loadLoop_cons_read_error files t rest _ summary stmts e hr,
            loadLoop_cons_read_error files t rest _ summary stmts e hr]
          exact ⟨rfl, rfl⟩
      | ok rows =>
          by_cases hemp : rows.isEmpty
          · right
            have h1 : insert_rows (⟨db1, some w, fk⟩ : Conn) t rows
                = .ok (⟨db1, some w, fk⟩, 0, []) := by
              simp [insert_rows, hemp]
            have h2 : insert_rows (⟨db2, some w, fk⟩ : Conn) t rows
                = .ok (⟨db2, some w, fk⟩, 0, []) := by
              simp [insert_rows, hemp]
            rw [loadLoop_cons_insert_ok files t rest _ _ summary stmts _ rows 0
              hr h1, loadLoop_cons_insert_ok files t rest _ _ summary stmts _
              rows 0 hr h2]
            simp [commitConn, currentTables]
          · cases hins : insertAll t (⟨db1, some w, fk⟩ : Conn) rows with
            | error e =>
                have hins2 := (insertAll_txn t rows w db1 db2 fk).1 e hins
                left
                have h1 : insert_rows (⟨db1, some w, fk⟩ : Conn) t rows
                    = .error e := by
                  simp [insert_rows, hemp, hins]
                have h2 : insert_rows (⟨db2, some w, fk⟩ : Conn) t rows
                    = .error e := by
                  simp [insert_rows, hemp, hins2]
                rw [loadLoop_cons_insert_error files t rest _ summary stmts
                  rows e hr h1, loadLoop_cons_insert_error files t rest _
                  summary stmts rows e hr h2]
                exact ⟨rfl, rfl⟩
            | ok c2 =>
                obtain ⟨w2, rfl, hins2⟩ :=
                  (insertAll_txn t rows w db1 db2 fk).2 c2 hins
                right
                have h1 : insert_rows (⟨db1, some w, fk⟩ : Conn) t rows
                    = .ok (⟨db1, some w2, fk⟩, rows.length, [insertQuery t]) := by
                  simp [insert_rows, hemp, hins]
                have h2 : insert_rows (⟨db2, some w, fk⟩ : Conn) t rows
                    = .ok (⟨db2, some w2, fk⟩, rows.length, [insertQuery t]) := by
                  simp [insert_rows, hemp, hins2]
                rw [loadLoop_cons_insert_ok files t rest _ _ summary stmts _
                  rows _ hr h1, loadLoop_cons_insert_ok files t rest _ _
                  summary stmts _ rows _ hr h2]
                simp [commitConn, currentTables]

/-! ## Claim theorems about the pipeline -/

/-- Claim C2: the pipeline clears the five tables in exactly the reverse of
the dependency order customers, products, orders, order_items, reviews, with
one unconditional delete-all per table, and then loads the tables in the
forward dependency order. -/
theorem clear_reverse_load_forward :
    (∀ c : Conn, (clear_tables c).2 =
      ["DELETE FROM reviews", "DELETE FROM order_items", "DELETE FROM orders",
       "DELETE FROM products", "DELETE FROM customers"]) ∧
    (∀ c : Conn, (clear_tables c).2 =
      LOAD_SEQUENCE.reverse.map (fun t => "DELETE FROM " ++ t)) ∧
    LOAD_SEQUENCE = ["customers", "products", "orders", "order_items", "reviews"] ∧
    (∀ files init, ∃ (N : Nat) (more : List String),
      (runMain files init).stmts = deleteStmts ++ more ∧
      (∀ s ∈ more, ∃ u, s = "INSERT INTO " ++ u) ∧
      (runMain files init).summary.map Prod.fst = LOAD_SEQUENCE.take N ∧
      ((runMain files init).error = none → N = LOAD_SEQUENCE.length)) := by
  refine ⟨fun c => rfl, fun c => rfl, rfl, ?_⟩
  intro files init
  obtain ⟨N, more, h1, h2, h3, _, _, _, _, _, h9⟩ := runMain_spec files init
  exact ⟨N, more, h1, h9, h2, h3⟩

/-- Witness for C2: on a concrete successful run the delete statements come
first and all five tables are loaded in forward order. -/
theorem clear_reverse_load_forward_witness :
    (clear_tables ⟨db0, none, true⟩).2 =
      ["DELETE FROM reviews", "DELETE FROM order_items", "DELETE FROM orders",
       "DELETE FROM products", "DELETE FROM customers"] ∧
    (runMain exEmptyFiles db0).summary.map Prod.fst = LOAD_SEQUENCE := by
  refine ⟨clear_reverse_load_forward.1 ⟨db0, none, true⟩, ?_⟩
  obtain ⟨N, more, _, _, h3, h4⟩ := clear_reverse_load_forward.2.2.2 exEmptyFiles db0
  rw [h3, h4 rfl]
  exact List.take_length _

/-- Claim C3 (counterexample): the claim says a failure while loading a table
leaves the clears already applied, but when the very first table fails (here
the customers file is missing) the connection rolls back the still-open
transaction holding the `DELETE` statements, so a stale review row survives
the run. -/
theorem per_table_atomic_counterexample :
    (runMain exMissingFiles exStaleInit).error.isSome = true ∧
    (runMain exMissingFiles exStaleInit).summary = [] ∧
    getTable (runMain exMissingFiles exStaleInit).db "reviews"
      = [[Value.textVal "R9"]] :=
  ⟨rfl, rfl, rfl⟩

/-- Claim C3 (amended): the summary names a prefix of the load order; every
summarised table holds exactly the rows read for it (full commit); a failure
while loading a later table (at least one table already committed) leaves
every later table empty, with the clears and prior tables committed; but a
failure at the first table rolls the clears back, leaving every table exactly
as before the run, because the delete statements share the first table's
implicit transaction. Schema creation is applied in every case. -/
theorem per_table_atomic_amended (files : Files) (init : DBState) :
    ∃ N : Nat,
      (runMain files init).summary.map Prod.fst = LOAD_SEQUENCE.take N ∧
      ((runMain files init).error = none → N = LOAD_SEQUENCE.length) ∧
      (∀ p ∈ (runMain files init).summary, ∃ rows,
        read_rows files p.1 = .ok rows ∧ p.2 = rows.length ∧
        getTable (runMain files init).db p.1 = rows) ∧
      ((runMain files init).error ≠ none → N = 0 →
        ∀ t, getTable (runMain files init).db t = getTable init t) ∧
      (((runMain files init).error = none ∨ 1 ≤ N) →
        ∀ t ∈ LOAD_SEQUENCE.drop N, getTable (runMain files init).db t = []) ∧
      (runMain files init).db.created = true := by
  obtain ⟨N, more, _, h2, h3, _, h5, h6, h7, h8, _⟩ := runMain_spec files init
  exact ⟨N, h2, h3, h5, h6, h7, h8⟩

/-- Witness for the amended C3: on the concrete failing run the customers
table committed, and the failed products table and every later table are left
empty, the clears having been committed with the first table. -/
theorem per_table_atomic_amended_witness :
    (runMain exFailFiles db0).summary.map Prod.fst = LOAD_SEQUENCE.take 1 ∧
    getTable (runMain exFailFiles db0).db "products" = [] ∧
    getTable (runMain exFailFiles db0).db "reviews" = [] := by
  obtain ⟨N, h1, _, _, _, h5, _⟩ := per_table_atomic_amended exFailFiles db0
  have hlen : (LOAD_SEQUENCE.take N).length = 1 := by
    rw [← h1]
    rfl
  have hN : N = 1 := by
    have hmin : min N 5 = 1 := by
      simpa [List.length_take, LOAD_SEQUENCE] using hlen
    omega
  subst hN
  exact ⟨h1, h5 (Or.inr (by omega)) "products" (by decide),
    h5 (Or.inr (by omega)) "reviews" (by decide)⟩

/-- Claim C6: the recorded inserted-row count equals the number of typed rows
the Row Reader produced for that entity; an empty row set records zero, and
no insert statement is issued for it. -/
theorem insert_count_matches_rows_read :
    (∀ (c : Conn) (t : String), insert_rows c t [] = .ok (c, 0, [])) ∧
    (∀ (c c2 : Conn) (t : String) (rows : List Row) (n : Nat)
      (st : List String), insert_rows c t rows = .ok (c2, n, st) →
      n = rows.length) ∧
    (∀ files init, ∀ p ∈ (runMain files init).summary,
      ∃ rows, read_rows files p.1 = .ok rows ∧ p.2 = rows.length) := by
  refine ⟨fun c t => rfl, ?_, ?_⟩
  · intro c c2 t rows n st h
    exact (insert_rows_ok c c2 t rows n st h).1
  · intro files init p hp
    obtain ⟨N, more, _, _, _, _, h5, _, _, _, _⟩ := runMain_spec files init
    obtain ⟨rows, hr1, hr2, _⟩ := h5 p hp
    exact ⟨rows, hr1, hr2⟩

/-- Witness for C6: on the concrete failing run the customers count of 1
equals the number of rows read from the customers file. -/
theorem insert_count_matches_rows_read_witness :
    ∃ rows, read_rows exFailFiles "customers" = .ok rows ∧
      (1 : Nat) = rows.length :=
  insert_count_matches_rows_read.2.2 exFailFiles db0 ("customers", 1)
    (by rw [show (runMain exFailFiles db0).summary = [("customers", 1)] from rfl]
        exact List.mem_singleton.mpr rfl)

/-- Claim C7: running the pipeline twice on unchanged source files produces
the identical final outcome — the same committed store state, summary,
statements and result — as running it once: the run is idempotent. -/
theorem run_twice_idempotent (files : Files) (init : DBState) :
    runMain files (runMain files init).db = runMain files init := by
  have hcr : (runMain files init).db.created = true := by
    obtain ⟨N, more, _, _, _, _, _, _, _, h8, _⟩ := runMain_spec files init
    exact h8
  rcases loadLoop_committed_dep files LOAD_SEQUENCE (by simp [LOAD_SEQUENCE])
      clearedDB { (runMain files init).db with created := true }
      { init with created := true } true [] deleteStmts with ⟨h1, h2⟩ | h1
  · rw [runMain_eq files ((runMain files init).db), h1,
      ← runMain_eq files init, DBState_set_created _ hcr]
  · rw [runMain_eq files ((runMain files init).db), h1,
      ← runMain_eq files init]

/-- Claim C9 (counterexample): on the concrete failing run the customers
entity completed before the fatal error, yet no summary line at all is
printed, contradicting the claim that completed entities get their line. -/
theorem summary_lines_on_failure_counterexample :
    (runMain exFailFiles db0).summary = [("customers", 1)] ∧
    (runMain exFailFiles db0).error.isSome = true ∧
    printedLines (runMain exFailFiles db0) = [] :=
  ⟨rfl, rfl, rfl⟩

/-- Claim C9 (amended): on any fatal error the run terminates with the
underlying error surfaced and prints no summary lines at all; summary lines
appear only when every entity completed. -/
theorem no_summary_lines_on_failure (files : Files) (init : DBState)
    (herr : (runMain files init).error ≠ none) :
    printedLines (runMain files init) = [] := by
  rcases he : (runMain files init).error with _ | e
  · exact absurd he herr
  · simp [printedLines, he]

/-- Witness for the amended C9 at the concrete failing run. -/
theorem no_summary_lines_on_failure_witness :
    printedLines (runMain exFailFiles db0) = [] :=
  no_summary_lines_on_failure exFailFiles db0 (Option.ne_none_iff_isSome.mpr rfl)

/-- Claim C10: on successful completion the console output is exactly one
line per entity, `entity_name: inserted count rows`, in the forward
dependency order used for loading. -/
theorem success_prints_forward_summary (files : Files) (init : DBState)
    (herr : (runMain files init).error = none) :
    (runMain files init).summary.map Prod.fst = LOAD_SEQUENCE ∧
    printedLines (runMain files init) =
      (runMain files init).summary.map
        (fun p => p.1 ++ ": inserted " ++ toString p.2 ++ " rows") := by
  constructor
  · obtain ⟨N, more, _, h2, h3, _, _, _, _, _, _⟩ := runMain_spec files init
    rw [h2, h3 herr]
    exact List.take_length _
  · simp [printedLines, herr]

/-- Witness for C10 at the concrete empty-files run, whose five lines come
out in forward dependency order. -/
theorem success_prints_forward_summary_witness :
    (runMain exEmptyFiles db0).summary.map Prod.fst = LOAD_SEQUENCE ∧
    printedLines (runMain exEmptyFiles db0) =
      (runMain exEmptyFiles db0).summary.map
        (fun p => p.1 ++ ": inserted " ++ toString p.2 ++ " rows") :=
  success_prints_forward_summary exEmptyFiles db0 rfl

/-! ## Numeric parse failures and header matching -/

lemma convertField_float_error (row : SrcRow) (config : TableConfig) (c : String)
    (h0 : pyStrip ((lookupField row c).getD "") ≠ "")
    (h1 : c ∈ config.float_fields)
    (hp : pyParseFloat (pyStrip ((lookupField row c).getD "")) = none) :
    convertField row config c = .error
      ("ValueError: could not convert string to float: "
        ++ pyStrip ((lookupField row c).getD "")) := by
  simp [convertField, h0, h1, hp]

lemma convertField_int_error (row : SrcRow) (config : TableConfig) (c : String)
    (h0 : pyStrip ((lookupField row c).getD "") ≠ "")
    (h1 : c ∉ config.float_fields) (h2 : c ∈ config.int_fields)
    (hp : pyParseInt (pyStrip ((lookupField row c).getD "")) = none) :
    convertField row config c = .error
      ("ValueError: invalid literal for int: "
        ++ pyStrip ((lookupField row c).getD "")) := by
  simp [convertField, h0, h1, h2, hp]

lemma convertAll_error (config : TableConfig) :
    ∀ (recs : List SrcRow) (r0 : SrcRow) (e : String), r0 ∈ recs →
      convert_row r0 config = .error e →
      ∃ e2, convertAll config recs = .error e2 := by
  intro recs
  induction recs with
  | nil =>
      intro r0 e h
      simp at h
  | cons rh rest ih =>
      intro r0 e hmem he
      rcases List.mem_cons.mp hmem with h0 | h0
      · subst h0
        exact ⟨e, by simp only [convertAll, he]⟩
      · simp only [convertAll]
        cases hc : convert_row rh config
        · exact ⟨_, rfl⟩
        · obtain ⟨e2, he2⟩ := ih r0 e h0 he
          rw [he2]
          exact ⟨e2, rfl⟩

/-- Claim C4: a non-empty trimmed value in a declared-decimal or
declared-integer column that fails the numeric parse makes `convert_row`
raise an error (no default value, no skipped row); an erroring record makes
the whole read fail, and a failed read leaves the run with a fatal error. -/
theorem numeric_parse_failure_fatal :
    (∀ (row : SrcRow) (config : TableConfig) (c : String),
      c ∈ config.columns → c ∈ config.float_fields →
      pyStrip ((lookupField row c).getD "") ≠ "" →
      pyParseFloat (pyStrip ((lookupField row c).getD "")) = none →
      ∃ e, convert_row row config = .error e) ∧
    (∀ (row : SrcRow) (config : TableConfig) (c : String),
      c ∈ config.columns → c ∉ config.float_fields → c ∈ config.int_fields →
      pyStrip ((lookupField row c).getD "") ≠ "" →
      pyParseInt (pyStrip ((lookupField row c).getD "")) = none →
      ∃ e, convert_row row config = .error e) ∧
    (∀ (config : TableConfig) (recs : List SrcRow) (r0 : SrcRow) (e : String),
      r0 ∈ recs → convert_row r0 config = .error e →
      ∃ e2, convertAll config recs = .error e2) ∧
    (∀ (files : Files) (init : DBState) (t e : String), t ∈ LOAD_SEQUENCE →
      read_rows files t = .error e → (runMain files init).error ≠ none) := by
  refine ⟨?_, ?_, convertAll_error, ?_⟩
  · intro row config c hcol hf hne hp
    exact convertFields_error row config config.columns c _ hcol
      (convertField_float_error row config c hne hf hp)
  · intro row config c hcol hnf hi hne hp
    exact convertFields_error row config config.columns c _ hcol
      (convertField_int_error row config c hne hnf hi hp)
  · intro files init t e ht hread habs
    obtain ⟨N, more, _, h2, h3, _, h4, _, _, _, _⟩ := runMain_spec files init
    have hN := h3 habs
    have hmem : t ∈ (runMain files init).summary.map Prod.fst := by
      rw [h2, hN, List.take_length]
      exact ht
    obtain ⟨p, hp, hfst⟩ := List.mem_map.mp hmem
    obtain ⟨rows, hr, _⟩ := h4 p hp
    rw [hfst, hread] at hr
    cases hr

/-- Witness for C4: the non-numeric price `abc` makes the products conversion
raise, and the concrete failing run ends with a fatal error. -/
theorem numeric_parse_failure_fatal_witness :
    (∃ e, convert_row [("price", "abc")] productsConfig = .error e) ∧
    (runMain exFailFiles db0).error ≠ none := by
  constructor
  · exact numeric_parse_failure_fatal.1 [("price", "abc")] productsConfig
      "price" (by decide) (by decide) (by decide) rfl
  · exact numeric_parse_failure_fatal.2.2.2 exFailFiles db0 "products"
      "ValueError: could not convert string to float: abc" (by decide) rfl

lemma lookupField_cons_ne (k v c : String) (row : SrcRow) (h : k ≠ c) :
    lookupField ((k, v) :: row) c = lookupField row c := by
  have hd : decide (k = c) = false := by
    simpa using h
  simp only [lookupField, List.find?]
  rw [hd]

/-- Claim C5: header names are matched by exact string equality against the
declared column list — a pair whose key is not exactly a declared column
(including a case variant) never affects the typed tuple; a declared column
missing from the source row yields null at its position; and the tuple is
aligned to the declared column list. -/
theorem header_matching_and_missing_columns :
    (∀ (config : TableConfig) (k v : String) (row : SrcRow),
      k ∉ config.columns →
      convert_row ((k, v) :: row) config = convert_row row config) ∧
    (∀ (config : TableConfig) (row : SrcRow) (i : Nat) (c : String),
      config.columns[i]? = some c → lookupField row c = none →
      ∀ vs, convert_row row config = .ok vs → vs[i]? = some Value.null) ∧
    (∀ (config : TableConfig) (row : SrcRow) (vs : List Value),
      convert_row row config = .ok vs → vs.length = config.columns.length) := by
  refine ⟨?_, ?_, ?_⟩
  · intro config k v row hk
    unfold convert_row
    apply convertFields_congr
    intro c hc
    exact lookupField_cons_ne k v c row (fun he => hk (he ▸ hc))
  · intro config row i c hci hlook vs hconv
    obtain ⟨w, hw, hcf⟩ := convertFields_get row config config.columns vs hconv i c hci
    rw [convertField_missing row config c hlook] at hcf
    cases hcf
    exact hw
  · intro config row vs h
    exact convertFields_length row config config.columns vs h

/-- Witness for C5: a case-variant key is ignored, and the missing order_id
column yields null in position zero of the typed tuple. -/
theorem header_matching_and_missing_columns_witness :
    convert_row [("ORDER_ID", "X1")] orderItemsConfig
        = convert_row [] orderItemsConfig ∧
    ([Value.null, Value.null, Value.null, Value.null, Value.null]
        : List Value)[0]? = some Value.null := by
  constructor
  · exact header_matching_and_missing_columns.1 orderItemsConfig "ORDER_ID"
      "X1" [] (by decide)
  · exact header_matching_and_missing_columns.2.1 orderItemsConfig
      [("Order_ID", "x")] 0 "order_id" rfl rfl
      [Value.null, Value.null, Value.null, Value.null, Value.null] rfl

/-! ## Referential integrity -/

lemma rowOK_sat (w : DBState) (fk : Bool) (t : String) (r : Row)
    (hfk : fk = true) (h : rowOK w fk t r = true) : satRow w t r := by
  rw [rowOK, hfk] at h
  simp only [Bool.not_true, Bool.false_or, Bool.and_eq_true, List.all_eq_true,
    Bool.not_eq_true', decide_eq_false_iff_not, Bool.or_eq_true,
    decide_eq_true_eq, List.any_eq_true] at h
  obtain ⟨⟨hnn, _⟩, hfks⟩ := h
  refine ⟨hnn, ?_⟩
  intro fk2 hmem
  rcases hfks fk2 hmem with h0 | h0
  · exact Or.inl h0
  · obtain ⟨p, hp, he⟩ := h0
    exact Or.inr ⟨p, hp, he⟩

lemma satRow_mono (w w2 : DBState) (t : String) (r : Row)
    (hsub : ∀ t2 p, p ∈ getTable w t2 → p ∈ getTable w2 t2)
    (h : satRow w t r) : satRow w2 t r := by
  refine ⟨h.1, fun fk hfk => ?_⟩
  rcases h.2 fk hfk with h0 | ⟨p, hp, he⟩
  · exact Or.inl h0
  · exact Or.inr ⟨p, hsub _ p hp, he⟩

lemma dbOK_insert_step (w : DBState) (fk : Bool) (t : String) (r : Row)
    (ht : t ∈ LOAD_SEQUENCE) (hfk : fk = true)
    (hok : rowOK w fk t r = true) (hdb : dbOK w) :
    dbOK (setTable w t (getTable w t ++ [r])) := by
  have hsub : ∀ t2 p, p ∈ getTable w t2 →
      p ∈ getTable (setTable w t (getTable w t ++ [r])) t2 := by
    intro t2 p hp
    by_cases he : t2 = t
    · subst he
      rw [getTable_setTable_same _ _ _ ht]
      exact List.mem_append_left _ hp
    · rw [getTable_setTable_other _ _ _ _ he]
      exact hp
  intro t2 r2 hr2
  by_cases he : t2 = t
  · subst he
    rw [getTable_setTable_same _ _ _ ht] at hr2
    rcases List.mem_append.mp hr2 with h0 | h0
    · exact satRow_mono _ _ _ _ hsub (hdb _ _ h0)
    · rw [List.mem_singleton.mp h0]
      exact satRow_mono _ _ _ _ hsub (rowOK_sat w fk t2 r hfk hok)
  · rw [getTable_setTable_other _ _ _ _ he] at hr2
    exact satRow_mono _ _ _ _ hsub (hdb _ _ hr2)

lemma dbOK_insertAll (t : String) (ht : t ∈ LOAD_SEQUENCE) :
    ∀ (rows : List Row) (c c2 : Conn), c.fk_on = true →
      insertAll t c rows = .ok c2 → dbOK (currentTables c) →
      dbOK (currentTables c2) := by
  intro rows
  induction rows with
  | nil =>
      intro c c2 _ h hdb
      cases h
      exact hdb
  | cons r rest ih =>
      intro c c2 hfk h hdb
      simp only [insertAll] at h
      split_ifs at h with hok
      refine ih _ c2 (by rw [execDML_fk]; exact hfk) h ?_
      rw [currentTables_execDML]
      exact dbOK_insert_step (currentTables c) c.fk_on t r ht hfk hok hdb

lemma dbOK_insert_rows (c c2 : Conn) (t : String) (rows : List Row)
    (n : Nat) (st : List String) (ht : t ∈ LOAD_SEQUENCE)
    (hfk : c.fk_on = true) (h : insert_rows c t rows = .ok (c2, n, st))
    (hdb : dbOK (currentTables c)) : dbOK (currentTables c2) := by
  simp only [insert_rows] at h
  split_ifs at h with hemp
  · cases h
    exact hdb
  · cases hins : insertAll t c rows <;> rw [hins] at h
    · cases h
    · cases h
      exact dbOK_insertAll t ht rows c _ hfk hins hdb

lemma dbOK_loadLoop (files : Files) :
    ∀ (ts : List String), (∀ t ∈ ts, t ∈ LOAD_SEQUENCE) →
    ∀ (c : Conn) (summary : List (String × Nat)) (stmts : List String)
      (o : RunOutcome), loadLoop files ts c summary stmts = o →
      c.fk_on = true → dbOK (currentTables c) →
      o.error = none → dbOK o.db := by
  intro ts
  induction ts with
  | nil =>
      intro _ c summary stmts o h _ hdb _
      subst h
      exact hdb
  | cons t rest ih =>
      intro hsub c summary stmts o h hfk hdb herr
      simp only [loadLoop] at h
      split at h
      · subst h
        simp at herr
      · rename_i rows hr
        split at h
        · subst h
          simp at herr
        · rename_i c2 n stmts2 hi
          have hins := insert_rows_ok c c2 t rows n stmts2 hi
          refine ih (fun t2 h2 => hsub t2 (List.mem_cons_of_mem _ h2))
            (commitConn c2) _ _ o h (by rw [commitConn_fk, hins.2.1]; exact hfk)
            ?_ herr
          rw [currentTables_commitConn]
          exact dbOK_insert_rows c c2 t rows n stmts2
            (hsub t (List.mem_cons_self _ _)) hfk hi hdb

lemma dbOK_clearedDB : dbOK clearedDB := by
  intro t r hr
  rw [getTable_clearedDB] at hr
  exact absurd hr (List.not_mem_nil r)

lemma dbOK_runMain (files : Files) (init : DBState)
    (herr : (runMain files init).error = none) :
    dbOK (runMain files init).db :=
  dbOK_loadLoop files LOAD_SEQUENCE (fun _ h => h)
    ⟨{ init with created := true }, some clearedDB, true⟩ [] deleteStmts
    (runMain files init) (runMain_eq files init).symm rfl dbOK_clearedDB herr

/-- Claim C8: foreign-key enforcement is enabled for the session, and after a
successful run every stored OrderItem matches an Order and a Product, and
every stored Review matches an Order, a Customer and a Product, on the
respective identifier columns. -/
theorem referential_integrity_after_success (files : Files) (init : DBState)
    (herr : (runMain files init).error = none) :
    (runMain files init).fk_on = true ∧
    (∀ r ∈ getTable (runMain files init).db "order_items",
      (∃ p ∈ getTable (runMain files init).db "orders",
        valOf "orders" p "order_id" = valOf "order_items" r "order_id") ∧
      (∃ p ∈ getTable (runMain files init).db "products",
        valOf "products" p "product_id" = valOf "order_items" r "product_id")) ∧
    (∀ r ∈ getTable (runMain files init).db "reviews",
      (∃ p ∈ getTable (runMain files init).db "orders",
        valOf "orders" p "order_id" = valOf "reviews" r "order_id") ∧
      (∃ p ∈ getTable (runMain files init).db "customers",
        valOf "customers" p "customer_id" = valOf "reviews" r "customer_id") ∧
      (∃ p ∈ getTable (runMain files init).db "products",
        valOf "products" p "product_id" = valOf "reviews" r "product_id")) := by
  have hdb := dbOK_runMain files init herr
  refine ⟨?_, ?_, ?_⟩
  · obtain ⟨N, more, _, _, _, h4, _, _, _, _, _⟩ := runMain_spec files init
    exact h4
  · intro r hr
    obtain ⟨hnn, hfks⟩ := hdb "order_items" r hr
    constructor
    · rcases hfks ("order_id", "orders", "order_id") (by decide) with h0 | h0
      · exact absurd h0 (hnn "order_id" (by decide))
      · exact h0
    · rcases hfks ("product_id", "products", "product_id") (by decide) with h0 | h0
      · exact absurd h0 (hnn "product_id" (by decide))
      · exact h0
  · intro r hr
    obtain ⟨hnn, hfks⟩ := hdb "reviews" r hr
    refine ⟨?_, ?_, ?_⟩
    · rcases hfks ("order_id", "orders", "order_id") (by decide) with h0 | h0
      · exact absurd h0 (hnn "order_id" (by decide))
      · exact h0
    · rcases hfks ("customer_id", "customers", "customer_id") (by decide) with h0 | h0
      · exact absurd h0 (hnn "customer_id" (by decide))
      · exact h0
    · rcases hfks ("product_id", "products", "product_id") (by decide) with h0 | h0
      · exact absurd h0 (hnn "product_id" (by decide))
      · exact h0

/-- Witness for C8 at the concrete successful empty run: the session has
foreign keys enabled. -/
theorem referential_integrity_after_success_witness :
    (runMain exEmptyFiles db0).fk_on = true :=
  (referential_integrity_after_success exEmptyFiles db0 rfl).1

end Ingest
